import Mathlib

/-!
Verification development for the `chattchain/xmtp-js` messaging layer.

The definitions below are a shallow embedding of
`src/packages/messaging/src/Client.ts` (topic derivation, send, stream,
list), of the envelope codec it uses, and of the keystore-provider
bootstrap contract.  JavaScript `Date` values are modelled as `Nat`
milliseconds since the epoch, byte sequences as `List Nat`, and the
cryptographic collaborators (`encrypt` / `decrypt`) as explicit function
parameters, since the spec treats them as external collaborators.
Stateful transport interactions (relay observers, publishes, store
queries) are made explicit: each operation returns, next to its result,
the transport effects it performed and the updated relay state.
-/

namespace Xmtp

/-- Model of a JS `Date`: milliseconds since the Unix epoch. -/
abbrev Time := Nat

/-- Byte sequences (`Uint8Array`) are modelled as lists of naturals. -/
abbrev Bytes := List Nat

/-- `Date.prototype.toUTCString` prints a date at second precision, so
`new Date(new Date().toUTCString())` (Client.ts line 168) yields the
current time truncated to a whole second.  -/
def utcStringTrunc (t : Time) : Time := 1000 * (t / 1000)

/-- Seven days in milliseconds, the literal `1000 * 60 * 60 * 24 * 7` of
Client.ts line 164. -/
def sevenDaysMs : Nat := 1000 * 60 * 60 * 24 * 7

/-- Modelled from the spec: the crypto collaborator (`./crypto`, not under
`src/`).  A public key exposes a stable address-like identifier
(`IdentityKeyBundle.addressIdentifier()` in spec section 6, realised as
`getEthereumAddress` in Client.ts). -/
structure PublicKey where
  ethereumAddress : String
deriving DecidableEq, Repr

/-- `PublicKey.getEthereumAddress()` as used by Client.ts lines 95 and 128. -/
def PublicKey.getEthereumAddress (k : PublicKey) : String := k.ethereumAddress

/-- Modelled from the spec: a private key of the crypto collaborator, from
which the corresponding public key is derivable. -/
structure PrivateKey where
  publicKey : PublicKey
deriving DecidableEq, Repr

/-- `PrivateKey.getPublicKey()` as used by Client.ts lines 128 and 186. -/
def PrivateKey.getPublicKey (k : PrivateKey) : PublicKey := k.publicKey

/-- A public key bundle (`KeyBundle` of `./crypto`): an optional identity
key and an optional pre-key.  The identity key is optional because the
Client guards against bundles lacking one (Client.ts lines 84, 118, 175). -/
structure KeyBundle where
  identityKey : Option PublicKey
  preKey : Option PublicKey
deriving DecidableEq, Repr

/-- A party's own key material (`PrivateKeyBundle` of `./crypto`). -/
structure PrivateKeyBundle where
  identityKey : Option PrivateKey
  preKey : Option PrivateKey
deriving DecidableEq, Repr

/-- Modelled from the spec: `PrivateKeyBundle.getKeyBundle()` (used at
Client.ts line 102) returns the party's public bundle, i.e. the public
halves of its keys. -/
def PrivateKeyBundle.getKeyBundle (b : PrivateKeyBundle) : KeyBundle :=
  { identityKey := b.identityKey.map PrivateKey.getPublicKey
    preKey := b.preKey.map PrivateKey.getPublicKey }

/-- `new TextEncoder().encode(s)` (Client.ts line 98): a string as a byte
sequence, modelled at code-point granularity. -/
def textEncode (s : String) : Bytes := s.toList.map Char.toNat

/-- `new TextDecoder().decode(b)` (Client.ts lines 142, 208). -/
def textDecode (b : Bytes) : String := String.mk (b.map Char.ofNat)

/-- `buildContentTopic` of Client.ts line 23:
`` (name) => `/xmtp/0/${name}/proto` ``. -/
def buildContentTopic (name : String) : String :=
  "/xmtp/0/" ++ name ++ "/proto"

/-- The topic `sendMessage` derives from the recipient's public identity
key (Client.ts lines 94-96). -/
def sendTopic (idk : PublicKey) : String :=
  buildContentTopic idk.getEthereumAddress

/-- The topic `streamMessages` and `listMessages` derive from the
recipient's own private identity key (Client.ts lines 127-129, 185-187). -/
def streamTopic (idk : PrivateKey) : String :=
  buildContentTopic idk.getPublicKey.getEthereumAddress

/-- The message-envelope header: sender and recipient public bundles,
both optional on the wire (`msg.header?.sender` is checked before use). -/
structure MessageHeader where
  sender : Option KeyBundle
  recipient : Option KeyBundle
deriving DecidableEq, Repr

/-- The message envelope (`Message` of `./message/Message`): an optional
header, optional ciphertext, and the locally attached `decrypted`
plaintext, which is set only after local decryption and never serialized. -/
structure Message where
  header : Option MessageHeader
  ciphertext : Option Bytes
  decrypted : Option String
deriving DecidableEq, Repr

/-- `msg.header?.sender` (Client.ts lines 137, 140, 203, 206). -/
def Message.headerSender (m : Message) : Option KeyBundle :=
  m.header.bind MessageHeader.sender

/-! ### Envelope codec

Modelled from the spec: `Message.toBytes` / `Message.fromBytes`
(`src/packages/messaging/src/message/Message.ts` is not included under
`src/`).  Per spec section 4.2 the codec deterministically serializes the
header fields and the ciphertext — and nothing else — into a payload, and
decoding either inverts that serialization or fails.  The model uses a
length-prefixed encoding over `List Nat`. -/

/-- Serialize a string: length prefix followed by its code points. -/
def encodeString (s : String) : List Nat :=
  s.length :: textEncode s

/-- Parse a string back, returning the unread remainder. -/
def decodeString : List Nat → Option (String × List Nat)
  | [] => none
  | n :: rest =>
    if n ≤ rest.length then
      some (String.mk ((rest.take n).map Char.ofNat), rest.drop n)
    else none

/-- Serialize a raw byte field: length prefix followed by the bytes. -/
def encodeBytes (b : Bytes) : List Nat :=
  b.length :: b

/-- Parse a raw byte field back, returning the unread remainder. -/
def decodeBytes : List Nat → Option (Bytes × List Nat)
  | [] => none
  | n :: rest =>
    if n ≤ rest.length then some (rest.take n, rest.drop n) else none

/-- Serialize an optional field: a presence tag, then the payload. -/
def encodeOption (enc : α → List Nat) : Option α → List Nat
  | none => [0]
  | some x => 1 :: enc x

/-- Parse an optional field back. -/
def decodeOption (dec : List Nat → Option (α × List Nat)) :
    List Nat → Option (Option α × List Nat)
  | 0 :: rest => some (none, rest)
  | 1 :: rest => (dec rest).map fun p => (some p.1, p.2)
  | _ => none

/-- Serialize a public key (its address identifier). -/
def encodePublicKey (k : PublicKey) : List Nat :=
  encodeString k.ethereumAddress

/-- Parse a public key back. -/
def decodePublicKey (l : List Nat) : Option (PublicKey × List Nat) :=
  (decodeString l).map fun p => (⟨p.1⟩, p.2)

/-- Serialize a key bundle: identity key then pre-key, both optional. -/
def encodeKeyBundle (b : KeyBundle) : List Nat :=
  encodeOption encodePublicKey b.identityKey ++
    encodeOption encodePublicKey b.preKey

/-- Parse a key bundle back. -/
def decodeKeyBundle (l : List Nat) : Option (KeyBundle × List Nat) :=
  match decodeOption decodePublicKey l with
  | none => none
  | some (idk, rest) =>
    match decodeOption decodePublicKey rest with
    | none => none
    | some (pk, rest) => some (⟨idk, pk⟩, rest)

/-- Serialize a header: sender bundle then recipient bundle. -/
def encodeHeader (h : MessageHeader) : List Nat :=
  encodeOption encodeKeyBundle h.sender ++
    encodeOption encodeKeyBundle h.recipient

/-- Parse a header back. -/
def decodeHeader (l : List Nat) : Option (MessageHeader × List Nat) :=
  match decodeOption decodeKeyBundle l with
  | none => none
  | some (snd, rest) =>
    match decodeOption decodeKeyBundle rest with
    | none => none
    | some (rcp, rest) => some (⟨snd, rcp⟩, rest)

/-- `Message.toBytes()`: the wire form of an envelope — header and
ciphertext only; the local `decrypted` plaintext is not serialized. -/
def Message.toBytes (m : Message) : Bytes :=
  encodeOption encodeHeader m.header ++ encodeOption encodeBytes m.ciphertext

/-- `Message.fromBytes(b)`: parse a wire payload back into an envelope
(with no plaintext attached); `none` models the decode throwing. -/
def Message.fromBytes (b : Bytes) : Option Message :=
  match decodeOption decodeHeader b with
  | none => none
  | some (hdr, rest) =>
    match decodeOption decodeBytes rest with
    | none => none
    | some (ct, rest) =>
      if rest.isEmpty then some ⟨hdr, ct, none⟩ else none

/-! ### Messaging client operations (Client.ts) -/

/-- The error taxonomy of spec section 7, as surfaced by the Client.
`missingRecipient` models `throw new Error('missing recipient')`. -/
inductive ClientError where
  | missingRecipient
  | malformedEnvelope
  | encryption
  | decryption
deriving DecidableEq, Repr

/-- The encryption collaborator `sender.encrypt(bytes, recipient)`
(Client.ts line 99); its failure propagates as an `EncryptionError`. -/
abbrev EncryptFn := Bytes → KeyBundle → Except Unit Bytes

/-- The decryption collaborator `recipient.decrypt(ciphertext, sender)`
(Client.ts lines 138, 204); its failure propagates as a
`DecryptionError`. -/
abbrev DecryptFn := Bytes → KeyBundle → Except Unit Bytes

/-- A publish performed on the relay (`waku.relay.send`, Client.ts
line 112): topic, wire payload, and timestamp. -/
structure PublishEffect where
  topic : String
  payload : Bytes
  timestamp : Time
deriving DecidableEq, Repr

/-- `Client.sendMessage` (Client.ts lines 79-113).  Returns the result
together with the list of publishes performed on the transport; the
`missing recipient` check precedes every transport interaction, so on
that path the effect list is empty. -/
def sendMessage (sender : PrivateKeyBundle) (recipient : KeyBundle)
    (msgString : String) (now : Time) (encrypt : EncryptFn) :
    Except ClientError Unit × List PublishEffect :=
  match recipient.identityKey with
  | none => (.error .missingRecipient, [])
  | some idk =>
    let contentTopic := sendTopic idk
    let msgBytes := textEncode msgString
    match encrypt msgBytes recipient with
    | .error _ => (.error .encryption, [])
    | .ok ciphertext =>
      let msg : Message :=
        { header := some { sender := some sender.getKeyBundle
                           recipient := some recipient }
          ciphertext := some ciphertext
          -- line 107: `msg.decrypted = msgString` before serialization
          decrypted := some msgString }
      (.ok (), [{ topic := contentTopic
                  payload := msg.toBytes
                  timestamp := now }])

/-- A delivered transport message (`WakuMessage`): `payload` is `none`
when the `wakuMsg.payload` guard of Client.ts line 135 is falsy. -/
structure WakuMessage where
  payload : Option Bytes
deriving DecidableEq, Repr

/-- One invocation of the observer callback registered by
`streamMessages` (Client.ts lines 134-145), as a transition on the state
of the one-shot stream promise (`none` = not yet resolved).  A missing
payload does nothing; a payload whose decode throws leaves the promise
unresolved (the rejection of the async callback is never observed); a
failing decrypt likewise prevents the `resolve` on line 144 from being
reached; otherwise `resolve([msg])` fires — note that it fires even when
the envelope lacks ciphertext or a sender header, line 144 being outside
the `if` of line 137 — and a `resolve` on an already-resolved promise is
a no-op. -/
def processWakuMessage (recipient : PrivateKeyBundle) (decrypt : DecryptFn)
    (resolved : Option Message) (wakuMsg : WakuMessage) : Option Message :=
  match resolved with
  | some m => some m
  | none =>
    match wakuMsg.payload with
    | none => none
    | some payload =>
      match Message.fromBytes payload with
      | none => none
      | some msg =>
        match msg.ciphertext, msg.headerSender with
        | some ct, some snd =>
          match decrypt ct snd with
          | .error _ => none
          | .ok bytes => some { msg with decrypted := some (textDecode bytes) }
        | _, _ => some msg

/-- What the stream promise of `streamMessages` resolves to after the
transport has delivered `delivered`, in order: the one-shot promise keeps
the first message that reaches `resolve`. -/
def streamResult (recipient : PrivateKeyBundle) (decrypt : DecryptFn)
    (delivered : List WakuMessage) : Option Message :=
  delivered.foldl (processWakuMessage recipient decrypt) none

/-- How many messages the stream yields to its consumer over a given
delivery sequence (the one-shot promise yields at most one). -/
def streamYieldCount (recipient : PrivateKeyBundle) (decrypt : DecryptFn)
    (delivered : List WakuMessage) : Nat :=
  (streamResult recipient decrypt delivered).toList.length

/-- The relay's observer registry (`waku.relay`).  Function values are
modelled by identity: every syntactic function creation draws a fresh id
from `nextFnId`, and `observers` records each registered callback id with
its content topics. -/
structure RelayState where
  nextFnId : Nat
  observers : List (Nat × List String)
deriving DecidableEq, Repr

/-- `waku.relay.deleteObserver(callback, topics)`: removes that exact
callback (compared by function identity) for those topics; removing a
callback that was never registered is a no-op and does not throw. -/
def relayDeleteObserver (fnId : Nat) (topics : List String)
    (st : RelayState) : RelayState :=
  { st with
    observers := st.observers.filter fun o => !(o.1 == fnId && o.2 == topics) }

/-- `Client.streamMessages` (Client.ts lines 115-153), relay-state view.
The `missing recipient` check throws synchronously before any observer is
registered; otherwise `waku.relay.addObserver` registers a freshly
created observer callback on the derived topic. Returns the registered
observer's id on success, with the updated relay state. -/
def streamMessages (recipient : PrivateKeyBundle) (st : RelayState) :
    Except ClientError Nat × RelayState :=
  match recipient.identityKey with
  | none => (.error .missingRecipient, st)
  | some idk =>
    let contentTopic := streamTopic idk
    let obsId := st.nextFnId
    (.ok obsId,
      { nextFnId := st.nextFnId + 1
        observers := (obsId, [contentTopic]) :: st.observers })

/-- The cancellation handle returned by `streamMessages` (Client.ts
lines 150-151): `() => this.waku.relay.deleteObserver(() => ({}), [contentTopic])`.
Each invocation creates a brand-new arrow function `() => ({})` — a fresh
function value, never the observer that `addObserver` registered — and
passes it to `deleteObserver`. -/
def streamClose (contentTopic : String) (st : RelayState) : RelayState :=
  let freshFnId := st.nextFnId
  relayDeleteObserver freshFnId [contentTopic]
    { st with nextFnId := st.nextFnId + 1 }

/-- `ListMessagesOptions` (Client.ts lines 12-16). -/
structure ListMessagesOptions where
  pageSize : Option Nat
  startTime : Option Time
  endTime : Option Time
deriving DecidableEq, Repr

/-- JS truthiness of `opts.pageSize` (Client.ts line 171): `undefined`
and `0` are both falsy. -/
def pageSizeUnset : Option Nat → Bool
  | none => true
  | some n => n == 0

/-- The defaulting block of `listMessages` (Client.ts lines 159-173),
which assigns into the caller's `opts` object in place: `startTime`
defaults to `Date.now()` minus seven days, `endTime` to
`new Date(new Date().toUTCString())` (the current time truncated to a
whole second), `pageSize` to 10. -/
def applyListDefaults (opts : ListMessagesOptions) (now : Time) :
    ListMessagesOptions :=
  let opts := if opts.startTime.isNone then
      { opts with startTime := some (now - sevenDaysMs) } else opts
  let opts := if opts.endTime.isNone then
      { opts with endTime := some (utcStringTrunc now) } else opts
  if pageSizeUnset opts.pageSize then { opts with pageSize := some 10 } else opts

/-- `PageDirection` of js-waku; `listMessages` always passes `FORWARD`
(Client.ts line 191). -/
inductive PageDirection where
  | forward
  | backward
deriving DecidableEq, Repr

/-- The argument bundle `listMessages` passes to
`waku.store.queryHistory` (Client.ts lines 189-196). -/
structure QueryParams where
  contentTopics : List String
  pageSize : Option Nat
  pageDirection : PageDirection
  startTime : Option Time
  endTime : Option Time
deriving DecidableEq, Repr

/-- `Promise.all` over a mapped list: the whole operation resolves with
every item's result, or rejects as soon as any item rejects. -/
def mapExcept (f : α → Except ε β) : List α → Except ε (List β)
  | [] => .ok []
  | a :: t =>
    match f a with
    | .error e => .error e
    | .ok b =>
      match mapExcept f t with
      | .error e => .error e
      | .ok bs => .ok (b :: bs)

/-- The decode-and-decrypt mapping `listMessages` applies to the query
result (Client.ts lines 198-212): drop items with a falsy payload, then
for each remaining item parse the envelope — a parse throw rejects the
whole `Promise.all` — and, when ciphertext and sender header are present,
decrypt and attach the plaintext; a single failing decrypt likewise
rejects the whole operation. -/
def processHistoryItem (recipient : PrivateKeyBundle) (decrypt : DecryptFn)
    (w : WakuMessage) : Except ClientError Message :=
  match w.payload with
  | none => .error .malformedEnvelope
  | some payload =>
    match Message.fromBytes payload with
    | none => .error .malformedEnvelope
    | some msg =>
      match msg.ciphertext, msg.headerSender with
      | some ct, some snd =>
        match decrypt ct snd with
        | .error _ => .error .decryption
        | .ok bytes => .ok { msg with decrypted := some (textDecode bytes) }
      | _, _ => .ok msg

/-- The whole post-query pipeline of `listMessages`: filter, then
`Promise.all` of the per-item mapping. -/
def processHistory (recipient : PrivateKeyBundle) (decrypt : DecryptFn)
    (wakuMsgs : List WakuMessage) : Except ClientError (List Message) :=
  mapExcept (processHistoryItem recipient decrypt)
    (wakuMsgs.filter fun w => w.payload.isSome)

/-- The observable outcome of one `listMessages` call: its result, the
state of the caller-supplied options object after the call (the source
assigns the defaults into that same object), and the store query it
performed, if any. -/
structure ListCall where
  result : Except ClientError (List Message)
  optsAfter : Option ListMessagesOptions
  query : Option QueryParams
deriving Repr

/-- `Client.listMessages` (Client.ts lines 155-213).  `optsIn` is the
caller's options object (`none` models passing `undefined`, in which case
line 160 allocates a private fresh object and the caller observes
nothing); `store` is the transport's `queryHistory`.  The defaults are
written into the caller's object before the `missing recipient` check,
matching the source order. -/
def listMessages (recipient : PrivateKeyBundle)
    (optsIn : Option ListMessagesOptions) (now : Time)
    (store : QueryParams → List WakuMessage) (decrypt : DecryptFn) :
    ListCall :=
  let opts := match optsIn with
    | none => ({ pageSize := none, startTime := none, endTime := none } :
        ListMessagesOptions)
    | some o => o
  let opts := applyListDefaults opts now
  let optsAfter := optsIn.map fun _ => opts
  match recipient.identityKey with
  | none => { result := .error .missingRecipient
              optsAfter := optsAfter
              query := none }
  | some idk =>
    let q : QueryParams :=
      { contentTopics := [streamTopic idk]
        pageSize := opts.pageSize
        pageDirection := .forward
        startTime := opts.startTime
        endTime := opts.endTime }
    { result := processHistory recipient decrypt (store q)
      optsAfter := optsAfter
      query := some q }

/-! ### Keystore provider bootstrap (spec section 4.4)

Modelled from the spec: `KeyGeneratorKeystoreProvider`
(`src/keystore/providers/KeyGeneratorKeystoreProvider.ts` is not included
under `src/`; only the `KeystoreProvider` interface in `src/unnamed/part_000`
and the provider's tests are).  The model follows the spec's policy: with
no wallet the provider fails with `KeystoreProviderUnavailableError`;
with a wallet it creates identity material authorized by the wallet and
returns a keystore; a supplied `preCreateIdentityNotifier` is invoked
exactly once before identity creation, and not on the unavailable path. -/

/-- A wallet `Signer`, reduced to the address it controls. -/
structure Signer where
  address : String
deriving DecidableEq, Repr

/-- The `IApiClient` handle, reduced to its endpoint. -/
structure ApiClient where
  apiUrl : String
deriving DecidableEq, Repr

/-- `KeystoreProviderOptions` of `src/unnamed/part_000`, with the
`preCreateIdentityNotifier` callback modelled by its presence. -/
structure KeystoreProviderOptions where
  env : String
  persistConversations : Bool
  privateKeyOverride : Option Bytes
  preCreateIdentityNotifier : Option Unit
deriving DecidableEq, Repr

/-- `KeystoreProviderUnavailableError`. -/
inductive KeystoreProviderError where
  | unavailable
deriving DecidableEq, Repr

/-- The keystore handed back on success, bound to the resolved identity. -/
structure Keystore where
  walletAddress : String
deriving DecidableEq, Repr

/-- Modelled from the spec: `KeyGeneratorKeystoreProvider.newKeystore`.
Returns the outcome together with the number of times the
`preCreateIdentityNotifier` callback was invoked during the call. -/
def newKeystore (opts : KeystoreProviderOptions) (apiClient : ApiClient)
    (wallet : Option Signer) :
    Except KeystoreProviderError Keystore × Nat :=
  match wallet with
  | none => (.error .unavailable, 0)
  | some w =>
    let notifierCalls := match opts.preCreateIdentityNotifier with
      | some _ => 1
      | none => 0
    (.ok { walletAddress := w.address }, notifierCalls)

/-! ### Codec round-trip lemmas -/

theorem decodeString_encodeString (s : String) (r : List Nat) :
    decodeString (encodeString s ++ r) = some (s, r) := by
  have hlen : (textEncode s).length = s.length := by
    show (s.toList.map Char.toNat).length = s.data.length
    simp [String.toList]
  have hle : s.length ≤ (textEncode s ++ r).length := by
    rw [List.length_append, hlen]
    exact Nat.le_add_right _ _
  have hmap : (textEncode s).map Char.ofNat = s.data := by
    show (s.toList.map Char.toNat).map Char.ofNat = s.data
    have hcomp : (Char.ofNat ∘ Char.toNat) = id := funext Char.ofNat_toNat
    simp only [String.toList, List.map_map, hcomp, List.map_id]
  show decodeString (s.length :: (textEncode s ++ r)) = some (s, r)
  simp only [decodeString, if_pos hle]
  rw [← hlen, List.take_left, List.drop_left, hmap]

theorem decodeBytes_encodeBytes (b : Bytes) (r : List Nat) :
    decodeBytes (encodeBytes b ++ r) = some (b, r) := by
  have hle : b.length ≤ (b ++ r).length := by
    rw [List.length_append]
    exact Nat.le_add_right _ _
  show decodeBytes (b.length :: (b ++ r)) = some (b, r)
  simp only [decodeBytes, if_pos hle]
  rw [List.take_left, List.drop_left]

theorem decodeOption_encodeOption (enc : α → List Nat)
    (dec : List Nat → Option (α × List Nat))
    (hround : ∀ x r, dec (enc x ++ r) = some (x, r)) (o : Option α)
    (r : List Nat) :
    decodeOption dec (encodeOption enc o ++ r) = some (o, r) := by
  cases o with
  | none => rfl
  | some x =>
    show (dec (enc x ++ r)).map (fun p => (some p.1, p.2)) = some (some x, r)
    rw [hround]
    rfl

theorem decodePublicKey_encodePublicKey (k : PublicKey) (r : List Nat) :
    decodePublicKey (encodePublicKey k ++ r) = some (k, r) := by
  show (decodeString (encodeString k.ethereumAddress ++ r)).map _ = _
  rw [decodeString_encodeString]
  rfl

theorem decodeKeyBundle_encodeKeyBundle (b : KeyBundle) (r : List Nat) :
    decodeKeyBundle (encodeKeyBundle b ++ r) = some (b, r) := by
  have h1 := decodeOption_encodeOption encodePublicKey decodePublicKey
    decodePublicKey_encodePublicKey
  simp only [decodeKeyBundle, encodeKeyBundle, List.append_assoc, h1]

theorem decodeHeader_encodeHeader (h : MessageHeader) (r : List Nat) :
    decodeHeader (encodeHeader h ++ r) = some (h, r) := by
  have h1 := decodeOption_encodeOption encodeKeyBundle decodeKeyBundle
    decodeKeyBundle_encodeKeyBundle
  simp only [decodeHeader, encodeHeader, List.append_assoc, h1]

theorem fromBytes_toBytes (m : Message) :
    Message.fromBytes m.toBytes = some { m with decrypted := none } := by
  have h1 := decodeOption_encodeOption encodeHeader decodeHeader
    decodeHeader_encodeHeader
  have h2 := decodeOption_encodeOption encodeBytes decodeBytes
    decodeBytes_encodeBytes
  have h2nil : decodeOption decodeBytes (encodeOption encodeBytes m.ciphertext)
      = some (m.ciphertext, []) := by
    rw [← List.append_nil (encodeOption encodeBytes m.ciphertext)]
    exact h2 m.ciphertext []
  simp only [Message.fromBytes, Message.toBytes, h1, h2nil, List.isEmpty_nil,
    if_pos]

/-! ### Claim theorems -/

/-- Claim C6: for every well-formed envelope whose optional local
plaintext field is stripped, decoding the encoding of the envelope yields
the envelope again, and the plaintext annotation is never part of the
encoded wire form (the wire bytes do not depend on it). -/
theorem message_roundtrip_plaintext_stripped (m : Message) (d : Option String) :
    Message.toBytes { m with decrypted := d } = m.toBytes ∧
    (m.decrypted = none → Message.fromBytes m.toBytes = some m) := by
  refine ⟨rfl, fun h => ?_⟩
  rw [fromBytes_toBytes]
  cases m
  simp only at h
  rw [h]

/-- Witness for C6 at a concrete envelope: attaching a plaintext does not
change the wire bytes, and decoding those bytes restores the stripped
envelope. -/
theorem message_roundtrip_plaintext_stripped_witness :
    Message.toBytes { header := some ⟨some ⟨some ⟨"a"⟩, none⟩, none⟩
                      ciphertext := some [7, 8]
                      decrypted := some "x" }
      = Message.toBytes { header := some ⟨some ⟨some ⟨"a"⟩, none⟩, none⟩
                          ciphertext := some [7, 8]
                          decrypted := none } ∧
    Message.fromBytes
        (Message.toBytes { header := some ⟨some ⟨some ⟨"a"⟩, none⟩, none⟩
                           ciphertext := some [7, 8]
                           decrypted := none })
      = some { header := some ⟨some ⟨some ⟨"a"⟩, none⟩, none⟩
               ciphertext := some [7, 8]
               decrypted := none } :=
  have h := message_roundtrip_plaintext_stripped
    { header := some ⟨some ⟨some ⟨"a"⟩, none⟩, none⟩
      ciphertext := some [7, 8]
      decrypted := none } (some "x")
  ⟨h.1, h.2 rfl⟩

/-- Claim C7, counterexample: `buildContentTopic` does not reject the
empty identifier — applied to `""` it succeeds and returns an ordinary
topic string (the claim says the empty identifier fails). -/
theorem buildContentTopic_empty_succeeds :
    buildContentTopic "" = "/xmtp/0//proto" := by decide

/-- Claim C7, amended: `deriveTopic` (`buildContentTopic`) is a pure
total function whose output is `"/xmtp/0/" ++ name ++ "/proto"` for every
identifier, the empty one included; it has no failure mode at all.  Its
output is never empty, and it is injective (distinct identifiers always
yield distinct topics). -/
theorem buildContentTopic_spec (a : String) :
    buildContentTopic a = "/xmtp/0/" ++ a ++ "/proto" ∧
    buildContentTopic a ≠ "" ∧
    ∀ b : String, buildContentTopic a = buildContentTopic b → a = b := by
  refine ⟨rfl, ?_, ?_⟩
  · intro h
    have hdata := congrArg String.data h
    simp only [buildContentTopic] at hdata
    have : ("/xmtp/0/" ++ a ++ "/proto").data.length = ("" : String).data.length :=
      congrArg List.length hdata
    simp [String.data_append] at this
  · intro b h
    have hdata := congrArg String.data h
    simp only [buildContentTopic, String.data_append] at hdata
    have := List.append_cancel_left (List.append_cancel_right hdata)
    exact String.ext this

/-- Witness for C7 at a concrete identifier. -/
theorem buildContentTopic_spec_witness :
    buildContentTopic "ab" = "/xmtp/0/" ++ "ab" ++ "/proto" ∧
    buildContentTopic "ab" ≠ "" :=
  have h := buildContentTopic_spec "ab"
  ⟨h.1, h.2.1⟩

/-- Once the one-shot stream promise is resolved, later deliveries leave
its value unchanged. -/
theorem foldl_processWakuMessage_resolved (recipient : PrivateKeyBundle)
    (decrypt : DecryptFn) (l : List WakuMessage) (m : Message) :
    l.foldl (processWakuMessage recipient decrypt) (some m) = some m := by
  induction l with
  | nil => rfl
  | cons x t ih => exact ih

/-- If any element of the list maps to an error, the whole
`Promise.all`-style traversal is not a success. -/
theorem mapExcept_error_of_mem (f : α → Except ε β) (e : ε) :
    ∀ (l : List α) (x : α), x ∈ l → f x = .error e →
      (mapExcept f l).isOk = false := by
  intro l
  induction l with
  | nil => intro x hx; cases hx
  | cons a t ih =>
    intro x hx hf
    rcases List.mem_cons.mp hx with h | h
    · subst h
      simp only [mapExcept, hf]
      rfl
    · cases hfa : f a with
      | error e2 =>
        simp only [mapExcept, hfa]
        rfl
      | ok b =>
        have hrec := ih x h hf
        cases hmt : mapExcept f t with
        | error e2 =>
          simp only [mapExcept, hfa, hmt]
          rfl
        | ok bs => rw [hmt] at hrec; exact Bool.noConfusion hrec

/-- Closed form of the `listMessages` defaulting block. -/
theorem applyListDefaults_eq (ps : Option Nat) (st et : Option Time)
    (now : Time) :
    applyListDefaults ⟨ps, st, et⟩ now =
      ⟨if pageSizeUnset ps then some 10 else ps,
       if st.isNone then some (now - sevenDaysMs) else st,
       if et.isNone then some (utcStringTrunc now) else et⟩ := by
  cases st <;> cases et <;>
    simp only [applyListDefaults, Option.isNone_none, Option.isNone_some,
      if_true, if_false, Bool.false_eq_true, ite_true, ite_false] <;>
    split <;> rfl

/-- Claim C1, counterexample: the stream does not drop a decoded envelope
that lacks ciphertext — the `resolve` of Client.ts line 144 sits outside
the `if` of line 137, so such an envelope is yielded undecrypted; and the
stream does not continue past its first message — after two valid
payloads the one-shot promise has still yielded exactly one message, not
two. -/
theorem stream_counterexample :
    streamResult ⟨some ⟨⟨"r"⟩⟩, none⟩ (fun ct _ => .ok ct)
        [⟨some (Message.toBytes
          ⟨some ⟨some ⟨some ⟨"s"⟩, none⟩, none⟩, none, none⟩)⟩]
      = some ⟨some ⟨some ⟨some ⟨"s"⟩, none⟩, none⟩, none, none⟩ ∧
    streamYieldCount ⟨some ⟨⟨"r"⟩⟩, none⟩ (fun ct _ => .ok ct)
        [⟨some (Message.toBytes
           ⟨some ⟨some ⟨some ⟨"s"⟩, none⟩, none⟩, some [1], none⟩)⟩,
         ⟨some (Message.toBytes
           ⟨some ⟨some ⟨some ⟨"s"⟩, none⟩, none⟩, some [2], none⟩)⟩]
      = 1 := by decide

/-- Claim C1 (amended): a delivered payload that fails to decode (or has
no payload, or whose decrypt throws) is silently dropped and does not
break the stream; but a decoded envelope lacking ciphertext or a sender
header is still yielded (undecrypted), and the stream is one-shot: it
yields exactly the first message that reaches `resolve`, regardless of
later deliveries — in particular, after one malformed payload followed by
one valid payload, exactly one message is yielded. -/
theorem stream_yields_first_decoded (recipient : PrivateKeyBundle)
    (decrypt : DecryptFn) (post : List WakuMessage) (w : WakuMessage)
    (m : Message) :
    ∀ pre : List WakuMessage,
      (∀ x ∈ pre, processWakuMessage recipient decrypt none x = none) →
      processWakuMessage recipient decrypt none w = some m →
      streamResult recipient decrypt (pre ++ w :: post) = some m ∧
      streamYieldCount recipient decrypt (pre ++ w :: post) = 1 := by
  intro pre
  induction pre with
  | nil =>
    intro _ hw
    have hres : streamResult recipient decrypt (w :: post) = some m := by
      show post.foldl (processWakuMessage recipient decrypt)
        (processWakuMessage recipient decrypt none w) = some m
      rw [hw]
      exact foldl_processWakuMessage_resolved recipient decrypt post m
    exact ⟨hres, by simp [streamYieldCount, hres]⟩
  | cons x t ih =>
    intro hpre hw
    have hx := hpre x (List.mem_cons_self x t)
    have hres := ih (fun y hy => hpre y (List.mem_cons_of_mem x hy)) hw
    have hstep : streamResult recipient decrypt ((x :: t) ++ w :: post)
        = streamResult recipient decrypt (t ++ w :: post) := by
      show (t ++ w :: post).foldl (processWakuMessage recipient decrypt)
        (processWakuMessage recipient decrypt none x) = _
      rw [hx]
      rfl
    have hfinal := hstep.trans hres.1
    refine ⟨hfinal, ?_⟩
    show (streamResult recipient decrypt ((x :: t) ++ w :: post)).toList.length
      = 1
    rw [hfinal]
    rfl

/-- Witness for C1 (amended), matching the spec's test scenario: one
malformed payload followed by one valid payload yields exactly one
message — the decoded, decrypted valid one. -/
theorem stream_yields_first_decoded_witness :
    streamResult ⟨some ⟨⟨"r"⟩⟩, none⟩ (fun ct _ => .ok ct)
        [⟨some [99]⟩,
         ⟨some (Message.toBytes
           ⟨some ⟨some ⟨some ⟨"s"⟩, none⟩, none⟩, some [1], none⟩)⟩]
      = some ⟨some ⟨some ⟨some ⟨"s"⟩, none⟩, none⟩, some [1],
          some (textDecode [1])⟩ ∧
    streamYieldCount ⟨some ⟨⟨"r"⟩⟩, none⟩ (fun ct _ => .ok ct)
        [⟨some [99]⟩,
         ⟨some (Message.toBytes
           ⟨some ⟨some ⟨some ⟨"s"⟩, none⟩, none⟩, some [1], none⟩)⟩]
      = 1 :=
  stream_yields_first_decoded ⟨some ⟨⟨"r"⟩⟩, none⟩ (fun ct _ => .ok ct) []
    ⟨some (Message.toBytes
      ⟨some ⟨some ⟨some ⟨"s"⟩, none⟩, none⟩, some [1], none⟩)⟩
    ⟨some ⟨some ⟨some ⟨"s"⟩, none⟩, none⟩, some [1], some (textDecode [1])⟩
    [⟨some [99]⟩] (by decide) (by decide)

/-- Claim C2 (code bug): the cancellation handle of `streamMessages`
passes a freshly created arrow function — not the observer registered by
`addObserver` — to `deleteObserver`, so cancelling (even twice, which
indeed does not throw) leaves the subscription's observer registered: on
the relay that started empty, after subscribing and invoking the handle
twice, the observer is still in the registry. -/
theorem streamClose_leaves_observer_registered :
    (streamClose "/xmtp/0/r/proto" (streamClose "/xmtp/0/r/proto"
        (streamMessages ⟨some ⟨⟨"r"⟩⟩, none⟩ ⟨0, []⟩).2)).observers
      = [(0, ["/xmtp/0/r/proto"])] := by decide

/-- Claim C3: the topic `sendMessage` publishes to, computed from the
recipient's public key bundle, equals the topic `streamMessages`
subscribes to and `listMessages` queries, computed from the same
identity's private key bundle; and identical recipient identifiers always
yield identical topics. -/
theorem send_stream_list_topics_agree (sndr pkb : PrivateKeyBundle)
    (k : PrivateKey) (str : String) (now : Time) (encrypt : EncryptFn)
    (ct : Bytes) (st : RelayState) (optsIn : Option ListMessagesOptions)
    (store : QueryParams → List WakuMessage) (decrypt : DecryptFn)
    (hk : pkb.identityKey = some k)
    (henc : encrypt (textEncode str) pkb.getKeyBundle = .ok ct) :
    (sendMessage sndr pkb.getKeyBundle str now encrypt).2.map
        PublishEffect.topic = [streamTopic k] ∧
    (streamMessages pkb st).2.observers.head?.map Prod.snd
      = some [streamTopic k] ∧
    (listMessages pkb optsIn now store decrypt).query.map
        QueryParams.contentTopics = some [streamTopic k] ∧
    ∀ a b : PublicKey, a = b → sendTopic a = sendTopic b := by
  refine ⟨?_, ?_, ?_, fun a b hab => hab ▸ rfl⟩
  · have hkb : (PrivateKeyBundle.getKeyBundle pkb).identityKey
        = some k.getPublicKey := by
      simp [PrivateKeyBundle.getKeyBundle, hk]
    simp [sendMessage, hkb, henc, sendTopic, streamTopic]
  · simp [streamMessages, hk]
  · simp [listMessages, hk]

/-- Witness for C3 at a concrete identity. -/
theorem send_stream_list_topics_agree_witness :
    (sendMessage ⟨some ⟨⟨"s"⟩⟩, none⟩
        (PrivateKeyBundle.getKeyBundle ⟨some ⟨⟨"r"⟩⟩, none⟩) "hi" 5
        (fun b _ => .ok b)).2.map PublishEffect.topic
      = [streamTopic ⟨⟨"r"⟩⟩] ∧
    (streamMessages ⟨some ⟨⟨"r"⟩⟩, none⟩ ⟨0, []⟩).2.observers.head?.map
        Prod.snd = some [streamTopic ⟨⟨"r"⟩⟩] ∧
    (listMessages ⟨some ⟨⟨"r"⟩⟩, none⟩ none 5 (fun _ => [])
        (fun b _ => .ok b)).query.map QueryParams.contentTopics
      = some [streamTopic ⟨⟨"r"⟩⟩] :=
  have h := send_stream_list_topics_agree ⟨some ⟨⟨"s"⟩⟩, none⟩
    ⟨some ⟨⟨"r"⟩⟩, none⟩ ⟨⟨"r"⟩⟩ "hi" 5 (fun b _ => .ok b)
    (textEncode "hi") ⟨0, []⟩ none (fun _ => []) (fun b _ => .ok b) rfl rfl
  ⟨h.1, h.2.1, h.2.2.1⟩

/-- Claim C4: when the recipient key bundle lacks an identity key, `send`
fails with the missing-recipient error without performing any publish,
and `stream` fails synchronously with the same error leaving the relay
state untouched (no observer registered). -/
theorem missing_identity_rejects_before_transport (sndr : PrivateKeyBundle)
    (recipient : KeyBundle) (str : String) (now : Time)
    (encrypt : EncryptFn) (pkb : PrivateKeyBundle) (st : RelayState)
    (hr : recipient.identityKey = none) (hp : pkb.identityKey = none) :
    sendMessage sndr recipient str now encrypt
      = (.error .missingRecipient, []) ∧
    streamMessages pkb st = (.error .missingRecipient, st) := by
  constructor
  · simp [sendMessage, hr]
  · simp [streamMessages, hp]

/-- Witness for C4 at concrete bundles lacking identity keys. -/
theorem missing_identity_rejects_before_transport_witness :
    sendMessage ⟨some ⟨⟨"s"⟩⟩, none⟩ ⟨none, none⟩ "hi" 5 (fun b _ => .ok b)
      = (.error .missingRecipient, []) ∧
    streamMessages ⟨none, none⟩ ⟨0, []⟩ = (.error .missingRecipient, ⟨0, []⟩) :=
  missing_identity_rejects_before_transport ⟨some ⟨⟨"s"⟩⟩, none⟩
    ⟨none, none⟩ "hi" 5 (fun b _ => .ok b) ⟨none, none⟩ ⟨0, []⟩ rfl rfl

/-- Claim C5, counterexample: the default `endTime` is not `now` — it is
`now` truncated to a whole second (`new Date(new Date().toUTCString())`
drops the milliseconds), so a no-options call at `now = 1699999999567`
queries with `endTime = 1699999999000`. -/
theorem listMessages_default_endTime_not_now :
    ((listMessages ⟨some ⟨⟨"r"⟩⟩, none⟩ none 1699999999567 (fun _ => [])
        (fun ct _ => .ok ct)).query.map QueryParams.endTime)
      = some (some 1699999999000) ∧
    (1699999999000 : Nat) ≠ 1699999999567 := by decide

/-- Claim C5 (amended): a `list` call with no options (or with all three
options unset) queries with `startTime = now - 7 days`,
`endTime = now truncated to a whole second`, `pageSize = 10`, and forward
page direction, on the recipient's derived topic. -/
theorem listMessages_defaults (pkb : PrivateKeyBundle) (k : PrivateKey)
    (now : Time) (optsIn : Option ListMessagesOptions)
    (store : QueryParams → List WakuMessage) (decrypt : DecryptFn)
    (hk : pkb.identityKey = some k)
    (hopts : optsIn = none ∨ optsIn = some ⟨none, none, none⟩) :
    (listMessages pkb optsIn now store decrypt).query
      = some { contentTopics := [streamTopic k]
               pageSize := some 10
               pageDirection := .forward
               startTime := some (now - sevenDaysMs)
               endTime := some (utcStringTrunc now) } := by
  rcases hopts with h | h <;> subst h <;>
    simp [listMessages, applyListDefaults_eq, pageSizeUnset, hk]

/-- Witness for C5: the defaults at a concrete recipient and time. -/
theorem listMessages_defaults_witness :
    (listMessages ⟨some ⟨⟨"r"⟩⟩, none⟩ none 1700000000000 (fun _ => [])
        (fun ct _ => .ok ct)).query
      = some { contentTopics := [streamTopic ⟨⟨"r"⟩⟩]
               pageSize := some 10
               pageDirection := .forward
               startTime := some (1700000000000 - sevenDaysMs)
               endTime := some (utcStringTrunc 1700000000000) } :=
  listMessages_defaults ⟨some ⟨⟨"r"⟩⟩, none⟩ ⟨⟨"r"⟩⟩ 1700000000000 none
    (fun _ => []) (fun ct _ => .ok ct) rfl (Or.inl rfl)

/-- Claim C8: a decryption failure on any single retrieved item rejects
the whole `list` operation — the call never resolves with a (possibly
partial) message list. -/
theorem list_decrypt_failure_rejects_whole (pkb : PrivateKeyBundle)
    (k : PrivateKey) (optsIn : Option ListMessagesOptions) (now : Time)
    (wakuMsgs : List WakuMessage) (decrypt : DecryptFn) (w : WakuMessage)
    (p : Bytes) (m : Message) (ct : Bytes) (snd : KeyBundle)
    (hk : pkb.identityKey = some k) (hw : w ∈ wakuMsgs)
    (hp : w.payload = some p) (hm : Message.fromBytes p = some m)
    (hct : m.ciphertext = some ct) (hsnd : m.headerSender = some snd)
    (hdec : decrypt ct snd = .error ()) :
    ((listMessages pkb optsIn now (fun _ => wakuMsgs) decrypt).result).isOk
      = false := by
  have hitem : processHistoryItem pkb decrypt w = .error .decryption := by
    simp [processHistoryItem, hp, hm, hct, hsnd, hdec]
  have hmem : w ∈ wakuMsgs.filter fun x => x.payload.isSome :=
    List.mem_filter.mpr ⟨hw, by simp [hp]⟩
  have hall := mapExcept_error_of_mem (processHistoryItem pkb decrypt)
    ClientError.decryption (wakuMsgs.filter fun x => x.payload.isSome)
    w hmem hitem
  simpa [listMessages, hk, processHistory] using hall

/-- Witness for C8: one stored item whose decrypt fails makes the whole
call fail. -/
theorem list_decrypt_failure_rejects_whole_witness :
    ((listMessages ⟨some ⟨⟨"r"⟩⟩, none⟩ none 5
        (fun _ => [⟨some (Message.toBytes
          ⟨some ⟨some ⟨some ⟨"s"⟩, none⟩, none⟩, some [1], none⟩)⟩])
        (fun _ _ => .error ())).result).isOk = false :=
  list_decrypt_failure_rejects_whole ⟨some ⟨⟨"r"⟩⟩, none⟩ ⟨⟨"r"⟩⟩ none 5
    [⟨some (Message.toBytes
      ⟨some ⟨some ⟨some ⟨"s"⟩, none⟩, none⟩, some [1], none⟩)⟩]
    (fun _ _ => .error ())
    ⟨some (Message.toBytes
      ⟨some ⟨some ⟨some ⟨"s"⟩, none⟩, none⟩, some [1], none⟩)⟩
    (Message.toBytes ⟨some ⟨some ⟨some ⟨"s"⟩, none⟩, none⟩, some [1], none⟩)
    ⟨some ⟨some ⟨some ⟨"s"⟩, none⟩, none⟩, some [1], none⟩ [1]
    ⟨some ⟨"s"⟩, none⟩ rfl (List.mem_cons_self _ _) rfl (by decide) rfl rfl
    rfl

/-- Claim C9: the generator-style provider's `newKeystore` fails with the
unavailable error (and never invokes the notifier) when no wallet is
supplied; with a wallet it resolves to a keystore, and a supplied
`preCreateIdentityNotifier` is invoked exactly once on that success
path. -/
theorem newKeystore_policy (opts : KeystoreProviderOptions) (api : ApiClient)
    (w : Signer) :
    newKeystore opts api none = (.error .unavailable, 0) ∧
    (newKeystore opts api (some w)).1 = .ok { walletAddress := w.address } ∧
    (opts.preCreateIdentityNotifier.isSome →
      (newKeystore opts api (some w)).2 = 1) := by
  refine ⟨rfl, rfl, fun h => ?_⟩
  cases hn : opts.preCreateIdentityNotifier with
  | none => simp [hn] at h
  | some u => simp [newKeystore, hn]

/-- Witness for C9 at a concrete wallet, API client and options carrying
a notifier. -/
theorem newKeystore_policy_witness :
    newKeystore ⟨"local", false, none, some ()⟩ ⟨"u"⟩ none
      = (.error .unavailable, 0) ∧
    (newKeystore ⟨"local", false, none, some ()⟩ ⟨"u"⟩ (some ⟨"a"⟩)).1
      = .ok { walletAddress := "a" } ∧
    (newKeystore ⟨"local", false, none, some ()⟩ ⟨"u"⟩ (some ⟨"a"⟩)).2 = 1 :=
  have h := newKeystore_policy ⟨"local", false, none, some ()⟩ ⟨"u"⟩ ⟨"a"⟩
  ⟨h.1, h.2.1, h.2.2 rfl⟩

/-- Claim C10: when the caller supplies an options object leaving
`startTime`, `endTime` or `pageSize` unset, `listMessages` writes the
computed defaults into that same object — after the call the caller's
object equals the defaults-applied record, which differs from the object
passed in. -/
theorem listMessages_writes_defaults_into_caller_opts
    (pkb : PrivateKeyBundle) (opts : ListMessagesOptions) (now : Time)
    (store : QueryParams → List WakuMessage) (decrypt : DecryptFn)
    (h : opts.startTime = none ∨ opts.endTime = none ∨ opts.pageSize = none) :
    (listMessages pkb (some opts) now store decrypt).optsAfter
      = some (applyListDefaults opts now) ∧
    applyListDefaults opts now ≠ opts ∧
    (opts.startTime = none →
      (applyListDefaults opts now).startTime = some (now - sevenDaysMs)) ∧
    (opts.endTime = none →
      (applyListDefaults opts now).endTime = some (utcStringTrunc now)) ∧
    (opts.pageSize = none → (applyListDefaults opts now).pageSize = some 10) := by
  obtain ⟨ps, st, et⟩ := opts
  rw [applyListDefaults_eq]
  refine ⟨?_, ?_, ?_, ?_, ?_⟩
  · cases hr : pkb.identityKey <;>
      simp [listMessages, hr, applyListDefaults_eq]
  · intro heq
    rcases h with hf | hf | hf <;> simp only at hf <;> subst hf
    · have := congrArg ListMessagesOptions.startTime heq
      simp at this
    · have := congrArg ListMessagesOptions.endTime heq
      simp at this
    · have := congrArg ListMessagesOptions.pageSize heq
      simp [pageSizeUnset] at this
  · intro hf
    simp only at hf
    subst hf
    simp
  · intro hf
    simp only at hf
    subst hf
    simp
  · intro hf
    simp only at hf
    subst hf
    simp [pageSizeUnset]

/-- Witness for C10: a caller object with everything unset is observably
rewritten to the defaults. -/
theorem listMessages_writes_defaults_into_caller_opts_witness :
    (listMessages ⟨some ⟨⟨"r"⟩⟩, none⟩ (some ⟨none, none, none⟩)
        1700000000000 (fun _ => []) (fun ct _ => .ok ct)).optsAfter
      = some (applyListDefaults ⟨none, none, none⟩ 1700000000000) ∧
    applyListDefaults ⟨none, none, none⟩ 1700000000000 ≠ ⟨none, none, none⟩ :=
  have h := listMessages_writes_defaults_into_caller_opts
    ⟨some ⟨⟨"r"⟩⟩, none⟩ ⟨none, none, none⟩ 1700000000000 (fun _ => [])
    (fun ct _ => .ok ct) (Or.inl rfl)
  ⟨h.1, h.2.1⟩

end Xmtp
